import Mathlib

/-!
Shallow embedding of the clixon NACM (RFC 8341) access-control engine
(`src/lib/src/clixon_nacm.c`) and proofs about it.

The policy tree (`nacm` XML subtree) is modelled by `Nacm`; leaf lookups
performed with `xml_find_body` become `Option String` fields.  External
collaborators (xpath canonicalisation and instance-identifier resolution
over the data tree) are parameters of the evaluators, as they live
outside the engine source.
-/

namespace ClixonNacm

/-! ## C string helpers: strstr as substring containment over char lists -/

/-- `leadsList n h` is true iff the char list `n` is a leading segment of `h`. -/
def leadsList : List Char → List Char → Bool
  | [], _ => true
  | _ :: _, [] => false
  | a :: as, b :: bs => a == b && leadsList as bs

/-- `containsList n h` is true iff `n` occurs contiguously inside `h`
(the behaviour of C `strstr(h, n) != NULL`). -/
def containsList (n : List Char) : List Char → Bool
  | [] => leadsList n []
  | c :: cs => leadsList n (c :: cs) || containsList n cs

/-- C `strstr(hay, needle) != NULL`. -/
def strstr (hay needle : String) : Bool :=
  containsList needle.data hay.data

/-- Splits a char list at spaces: returns the current (first) token and the
remaining tokens.  Used only by the spec-side token semantics. -/
def splitSp : List Char → List Char × List (List Char)
  | [] => ([], [])
  | c :: cs =>
    if c == ' ' then ([], (splitSp cs).1 :: (splitSp cs).2)
    else (c :: (splitSp cs).1, (splitSp cs).2)

/-- The space-separated tokens of a string (as char lists; empty segments kept). -/
def tokensOf (s : String) : List (List Char) :=
  (splitSp s.data).1 :: (splitSp s.data).2

/-! ## Policy data model (`nacm` XML subtree) -/

/-- One `rule` entry of a `rule-list`.  Each field is the result of
`xml_find_body(xrule, <leaf>)`: `none` models a NULL return. -/
structure NacmRule where
  moduleName : Option String
  rpcName : Option String
  rpath : Option String
  notificationName : Option String
  accessOperations : Option String
  action : Option String
deriving DecidableEq

/-- One `group` entry under `groups`. -/
structure NacmGroup where
  gname : String
  userNames : List String
deriving DecidableEq

/-- One `rule-list` entry: its `group` leaf-list and its rules in document order. -/
structure NacmRuleList where
  rlgroups : List String
  rules : List NacmRule
deriving DecidableEq

/-- The `nacm` policy container. -/
structure Nacm where
  readDefault : Option String
  writeDefault : Option String
  execDefault : Option String
  groups : List NacmGroup
  ruleLists : List NacmRuleList
deriving DecidableEq

/-- The groups of `username`: xpath `groups/group[user-name='u']`, in document
order. -/
def groupsFor (x : Nacm) (username : String) : List NacmGroup :=
  x.groups.filter (fun g => g.userNames.contains username)

/-- Does a rule-list's `group` leaf-list match one of the user's groups?
(`xpath_first(rlist, nsc, ".[group='%s']", gname)` over each group.) -/
def ruleListGroupMatch (gvec : List NacmGroup) (rlist : NacmRuleList) : Bool :=
  gvec.any (fun g => rlist.rlgroups.contains g.gname)

/-! ## match_access (clixon_nacm.c lines 90-104) -/

/-- `match_access` from the source: NULL never matches, the exact value `*`
matches, otherwise `strstr` containment of the primary mode or (when given)
of the secondary mode. -/
def match_access (access_operations : Option String) (mode : String)
    (mode2 : Option String) : Bool :=
  match access_operations with
  | none => false
  | some a =>
    a == "*" || strstr a mode ||
      (match mode2 with
       | some m2 => strstr a m2
       | none => false)

/-- Token-set semantics of `access-operations` matching as worded by the
spec (§4.2.3): tokenize on spaces and test set membership of `*`, of the
primary mode, and (when given) of the secondary mode. -/
def match_access_tokens (access_operations : Option String) (mode : String)
    (mode2 : Option String) : Bool :=
  match access_operations with
  | none => false
  | some a =>
    (tokensOf a).contains "*".data || (tokensOf a).contains mode.data ||
      (match mode2 with
       | some m2 => (tokensOf a).contains m2.data
       | none => false)

/-! ## RPC evaluation (nacm_rpc, clixon_nacm.c lines 128-311) -/

/-- `nacm_rule_rpc` (lines 128-165): does the rule match the requested
protocol operation?  Steps 7a (module-name), 7b (rule-type), 7c (exec bit). -/
def nacm_rule_rpc (rpc moduleN : String) (xrule : NacmRule) : Bool :=
  match xrule.moduleName with
  | none => false
  | some module_rule =>
    if module_rule != "*" && module_rule != moduleN then false
    else
      (match xrule.rpcName with
       | none => xrule.rpath == none && xrule.notificationName == none
       | some rpc_rule => rpc_rule == "*" || rpc_rule == rpc) &&
      match_access xrule.accessOperations "exec" none

/-- Permit/deny verdict of `nacm_rpc`; `deny` carries the netconf error
message passed to `netconf_access_denied`. -/
inductive NacmVerdict where
  | permit
  | deny (msg : String)
deriving DecidableEq

/-- The first rule, scanning group-matching rule-lists in document order and
their rules in document order, matching the requested operation (the C
double loop with its two `break`s). -/
def rpcFirstMatch (rpc moduleN : String) (gvec : List NacmGroup)
    (rls : List NacmRuleList) : Option NacmRule :=
  ((rls.filter (ruleListGroupMatch gvec)).flatMap (fun rl => rl.rules)).find?
    (nacm_rule_rpc rpc moduleN)

/-- Steps 10-12 of RFC 8341 §3.4.4 as nacm_rpc implements them
(lines 273-293): kill-session/delete-config are denied, otherwise the
`exec-default` leaf decides, absence counting as permit. -/
def rpcStep10 (rpc : String) (xnacm : Nacm) : NacmVerdict :=
  if rpc == "kill-session" || rpc == "delete-config" then .deny "default deny"
  else
    match xnacm.execDefault with
    | none => .permit
    | some exec_default =>
      if exec_default == "permit" then .permit else .deny "default deny"

/-- `nacm_rpc` (lines 180-311): incoming RPC message validation. -/
def nacm_rpc (rpc moduleN : String) (username : Option String)
    (xnacm : Nacm) : NacmVerdict :=
  if rpc == "close-session" then .permit
  else
    match username with
    | none => rpcStep10 rpc xnacm
    | some u =>
      let gvec := groupsFor xnacm u
      if gvec.isEmpty then rpcStep10 rpc xnacm
      else
        match rpcFirstMatch rpc moduleN gvec xnacm.ruleLists with
        | none => rpcStep10 rpc xnacm
        | some xrule =>
          match xrule.action with
          | none => rpcStep10 rpc xnacm
          | some action =>
            if action == "deny" then .deny "access denied"
            else if action == "permit" then .permit
            else rpcStep10 rpc xnacm

/-! ## Data tree model

An XML data tree node carries a unique identity (standing for the C node
pointer), whether `xml_spec` is non-NULL, the name of the YANG module the
node belongs to (the result of `ys_module_by_xml`), and its element
children.  A forest is encoded first-child/next-sibling so that every
function below is structural (and hence kernel-evaluable). -/

/-- Forest of XML element nodes: `cons xid hasSpec modName sub sib` is a node
with children `sub` followed by its right siblings `sib`. -/
inductive XForest where
  | nil
  | cons (xid : Nat) (hasSpec : Bool) (modName : String) (sub : XForest) (sib : XForest)
deriving DecidableEq

/-- A rooted XML tree: the root node and its element children. -/
structure XTree where
  xid : Nat
  hasSpec : Bool
  modName : String
  sub : XForest
deriving DecidableEq

/-- Is a node with identity `n` in the forest? -/
def idMemF (n : Nat) : XForest → Bool
  | .nil => false
  | .cons i _ _ sub sib => i == n || idMemF n sub || idMemF n sib

/-- Is a node with identity `n` in the tree (root included)? -/
def idMemX (t : XTree) (n : Nat) : Bool :=
  t.xid == n || idMemF n t.sub

/-- `xml_purge` of every requested subtree root: removes from the forest each
node whose identity is listed (together with its subtree). -/
def purgeIdsF (roots : List Nat) : XForest → XForest
  | .nil => .nil
  | .cons i h m sub sib =>
    if roots.contains i then purgeIdsF roots sib
    else .cons i h m (purgeIdsF roots sub) (purgeIdsF roots sib)

/-! ## Preparation cache (nacm_datanode_prepare, lines 313-502) -/

/-- The four data-node access operations handled by the prepare switch. -/
inductive NacmAccess where
  | read
  | create
  | update
  | delete
deriving DecidableEq

/-- One entry of the preparation cache (`struct prepvec`): a borrowed rule and
the identities of the data-tree nodes its canonical path resolved to
(`pv_xpathvec`). -/
structure PrepEntry where
  pv_xrule : NacmRule
  pv_xpathvec : List Nat
deriving DecidableEq

/-- The access-operations filter of the prepare switch (lines 415-444):
primary mode per access, secondary mode `write` for create/delete/update. -/
def prepAccessMatch (access : NacmAccess) (access_operations : Option String) : Bool :=
  match access with
  | .read => match_access access_operations "read" none
  | .create => match_access access_operations "create" (some "write")
  | .delete => match_access access_operations "delete" (some "write")
  | .update => match_access access_operations "update" (some "write")

/-- The per-rule body of the prepare loop (lines 410-487).  `canon` models
`clixon_trim2` plus `xpath2canonical` under the rule's local namespace
context; `resolve` models `clixon_xml_find_instance_id` against the full
tree, returning node identities. -/
def prepRule (canon : String → String) (resolve : String → List Nat)
    (access : NacmAccess) (xrule : NacmRule) : Option PrepEntry :=
  if !prepAccessMatch access xrule.accessOperations then none
  else
    match xrule.rpath with
    | none =>
      if xrule.rpcName != none || xrule.notificationName != none then none
      else some ⟨xrule, []⟩
    | some path0 =>
      let xvec := resolve (canon path0)
      if xvec.isEmpty then none else some ⟨xrule, xvec⟩

/-- Rule loop of `nacm_datanode_prepare`: keeps cache entries in rule order. -/
def prepRules (canon : String → String) (resolve : String → List Nat)
    (access : NacmAccess) : List NacmRule → List PrepEntry
  | [] => []
  | xrule :: rest =>
    match prepRule canon resolve access xrule with
    | none => prepRules canon resolve access rest
    | some pv => pv :: prepRules canon resolve access rest

/-- `nacm_datanode_prepare` (lines 362-502): walk rule-lists in document
order, skip those whose groups do not intersect the user's groups, and cache
the surviving rules with their resolved path nodes. -/
def nacm_datanode_prepare (canon : String → String) (resolve : String → List Nat)
    (access : NacmAccess) (gvec : List NacmGroup) :
    List NacmRuleList → List PrepEntry
  | [] => []
  | rlist :: rest =>
    if !ruleListGroupMatch gvec rlist then
      nacm_datanode_prepare canon resolve access gvec rest
    else
      prepRules canon resolve access rlist.rules ++
        nacm_datanode_prepare canon resolve access gvec rest

/-- The preparation cache as §4.3 of the spec words it: filter rule-lists by
group intersection, then per rule (in order) filter by access mode, resolve
`path` rules (dropping empty resolutions), emit `(rule, ∅)` for
rule-type-any rules, and skip rpc-name/notification-name rules. -/
def prepare_cache_spec (canon : String → String) (resolve : String → List Nat)
    (access : NacmAccess) (gvec : List NacmGroup) (rls : List NacmRuleList) :
    List PrepEntry :=
  (rls.filter (ruleListGroupMatch gvec)).flatMap (fun rlist =>
    rlist.rules.filterMap (fun r =>
      if !prepAccessMatch access r.accessOperations then none
      else
        match r.rpath with
        | some path0 =>
          let nodes := resolve (canon path0)
          if nodes.isEmpty then none else some ⟨r, nodes⟩
        | none =>
          if r.rpcName != none || r.notificationName != none then none
          else some ⟨r, []⟩))

/-! ## Write evaluation (lines 504-766) -/

/-- Result of `nacm_data_write_xrule_xml`: the C retvals 0 / 1 / 2. -/
inductive WMatch where
  | nomatch
  | deny
  | permit
deriving DecidableEq

/-- `nacm_data_write_xrule_xml` (lines 518-571): match one cache rule against
the node with identity `xid`, module `xmod` and strict-ancestor identities
`anc` (`xml_isancestor`).  On a match the mandatory `action` leaf selects
deny or permit. -/
def nacm_data_write_xrule_xml (xrule : NacmRule) (xpathvec : List Nat)
    (xid : Nat) (xmod : String) (anc : List Nat) : WMatch :=
  match xrule.moduleName with
  | none => .nomatch
  | some module_pattern =>
    if module_pattern != "*" && xmod != module_pattern then .nomatch
    else
      match xrule.rpath with
      | none => if xrule.action == some "deny" then .deny else .permit
      | some _ =>
        if xpathvec.any (fun xp => xp == xid || anc.contains xp) then
          (if xrule.action == some "deny" then .deny else .permit)
        else .nomatch

/-- The cache scan of `nacm_datanode_write_recurse` (lines 602-624): first
non-`nomatch` rule wins. -/
def writeMatchFirst (pvs : List PrepEntry) (xid : Nat) (xmod : String)
    (anc : List Nat) : WMatch :=
  match pvs with
  | [] => .nomatch
  | pv :: rest =>
    match nacm_data_write_xrule_xml pv.pv_xrule pv.pv_xpathvec xid xmod anc with
    | .nomatch => writeMatchFirst rest xid xmod anc
    | .deny => .deny
    | .permit => .permit

/-- `nacm_datanode_write_recurse` (lines 589-646) over a forest: `none` is
the C retval 1 (accept), `some msg` is retval 0 with `msg` in `cbret`. -/
def nacm_datanode_write_recurse (pvs : List PrepEntry) (defpermit : Bool) :
    List Nat → XForest → Option String
  | _, .nil => none
  | anc, .cons xid _ xmod sub sib =>
    match writeMatchFirst pvs xid xmod anc with
    | .deny => some "access denied"
    | .permit =>
      (match nacm_datanode_write_recurse pvs defpermit (xid :: anc) sub with
       | some msg => some msg
       | none => nacm_datanode_write_recurse pvs defpermit anc sib)
    | .nomatch =>
      if !defpermit then some "default deny"
      else
        match nacm_datanode_write_recurse pvs defpermit (xid :: anc) sub with
        | some msg => some msg
        | none => nacm_datanode_write_recurse pvs defpermit anc sib

/-- Result of `nacm_datanode_write`: the C retvals 1 / 0 / -1, the last being
the `clicon_err` fatal-configuration escape. -/
inductive NacmWResult where
  | permit
  | deny (msg : String)
  | fatal (msg : String)
deriving DecidableEq

/-- Step 9/12 of the write path (lines 729-746): with no groups (or no user),
`write-default` decides. -/
def writeStep9 (write_default : String) : NacmWResult :=
  if write_default == "deny" then .deny "default deny" else .permit

/-- `nacm_datanode_write` (lines 665-766).  `xreq` is the requested node
(part of the full tree); `anc0` holds the identities of its strict ancestors
in that tree; `resolve` resolves canonical instance-identifiers against the
full tree. -/
def nacm_datanode_write (resolve : String → List Nat) (canon : String → String)
    (anc0 : List Nat) (xreq : XTree) (access : NacmAccess)
    (username : Option String) (xnacm : Option Nacm) : NacmWResult :=
  match xnacm with
  | none => .permit
  | some x =>
    match x.writeDefault with
    | none => .fatal "No nacm write-default rule"
    | some write_default =>
      match username with
      | none => writeStep9 write_default
      | some u =>
        let gvec := groupsFor x u
        if gvec.isEmpty then writeStep9 write_default
        else
          let pvs := nacm_datanode_prepare canon resolve access gvec x.ruleLists
          let defpermit := write_default != "deny"
          match writeMatchFirst pvs xreq.xid xreq.modName anc0 with
          | .deny => .deny "access denied"
          | .permit =>
            (match nacm_datanode_write_recurse pvs defpermit (xreq.xid :: anc0) xreq.sub with
             | some msg => .deny msg
             | none => .permit)
          | .nomatch =>
            if !defpermit then .deny "default deny"
            else
              match nacm_datanode_write_recurse pvs defpermit (xreq.xid :: anc0) xreq.sub with
              | some msg => .deny msg
              | none => .permit

/-! ## Read evaluation (lines 768-1060)

The read pass mutates node flags; here a traversed forest becomes an
`MForest` carrying the `XML_FLAG_MARK` bit, with `XML_FLAG_DEL` nodes
already removed (the C purges a DEL child right after visiting it). -/

/-- Forest of visited nodes with their MARK flag. -/
inductive MForest where
  | nil
  | cons (xid : Nat) (hasSpec : Bool) (modName : String) (mark : Bool)
      (sub : MForest) (sib : MForest)
deriving DecidableEq

/-- Flag outcome of visiting a node: `XML_FLAG_DEL`, `XML_FLAG_MARK`, or no
flag. -/
inductive RFlag where
  | del
  | mark
  | keep
deriving DecidableEq

/-- `nacm_data_read_action` (lines 778-794): which flag a matching rule's
`action` leaf sets (an absent or unknown action sets none). -/
def nacm_data_read_action (xrule : NacmRule) : RFlag :=
  match xrule.action with
  | none => .keep
  | some action =>
    if action == "deny" then .del
    else if action == "permit" then .mark
    else .keep

/-- `nacm_data_read_xrule_xml` (lines 809-856): does one cache rule match the
node with identity `xid`, module `xmod`, strict ancestors `anc`? -/
def nacm_data_read_xrule_xml (xrule : NacmRule) (xpathvec : List Nat)
    (xid : Nat) (xmod : String) (anc : List Nat) : Bool :=
  match xrule.moduleName with
  | none => false
  | some module_pattern =>
    if module_pattern != "*" && xmod != module_pattern then false
    else
      match xrule.rpath with
      | none => true
      | some _ => xpathvec.any (fun xp => xp == xid || anc.contains xp)

/-- The cache scan of `nacm_datanode_read_recurse` (lines 880-891): the flag
set by the first matching rule (none matching sets no flag). -/
def readFlag (pvs : List PrepEntry) (anc : List Nat) (xid : Nat)
    (xmod : String) : RFlag :=
  match pvs with
  | [] => .keep
  | pv :: rest =>
    if nacm_data_read_xrule_xml pv.pv_xrule pv.pv_xpathvec xid xmod anc then
      nacm_data_read_action pv.pv_xrule
    else readFlag rest anc xid xmod

/-- The flag computed for one node: rules are consulted only when `xml_spec`
is non-NULL (line 879). -/
def readNodeFlag (pvs : List PrepEntry) (anc : List Nat) (xid : Nat)
    (hasSpec : Bool) (xmod : String) : RFlag :=
  if hasSpec then readFlag pvs anc xid xmod else .keep

/-- `nacm_datanode_read_recurse` (lines 867-920) over a forest: each node is
flagged by the first matching rule; a DEL node is dropped with its whole
subtree (its children are not visited), a MARK node keeps the mark for the
later prune pass. -/
def nacm_datanode_read_recurse (pvs : List PrepEntry) :
    List Nat → XForest → MForest
  | _, .nil => .nil
  | anc, .cons xid hasSpec xmod sub sib =>
    match readNodeFlag pvs anc xid hasSpec xmod with
    | .del => nacm_datanode_read_recurse pvs anc sib
    | .mark =>
      .cons xid hasSpec xmod true
        (nacm_datanode_read_recurse pvs (xid :: anc) sub)
        (nacm_datanode_read_recurse pvs anc sib)
    | .keep =>
      .cons xid hasSpec xmod false
        (nacm_datanode_read_recurse pvs (xid :: anc) sub)
        (nacm_datanode_read_recurse pvs anc sib)

/-- Embeds an untraversed forest with all MARK flags clear (the children of a
DEL-flagged root are left unvisited by the C recursion). -/
def toMF : XForest → MForest
  | .nil => .nil
  | .cons i h m sub sib => .cons i h m false (toMF sub) (toMF sib)

/-- Does the forest contain a MARK flag? -/
def hasMarkF : MForest → Bool
  | .nil => false
  | .cons _ _ _ mark sub sib => mark || hasMarkF sub || hasMarkF sib

/-- Modelled from the spec: `xml_tree_prune_flagged_sub` (§6
`prune_unmarked`), whose source is outside `src/`: remove every subtree
whose root is not marked and which contains no marked descendant. -/
def pruneF : MForest → MForest
  | .nil => .nil
  | .cons i h m mark sub sib =>
    if mark || hasMarkF sub then .cons i h m mark (pruneF sub) (pruneF sib)
    else pruneF sib

/-- Clears the MARK flags (`xml_apply … xml_flag_reset … XML_FLAG_MARK`),
returning the plain output forest. -/
def stripF : MForest → XForest
  | .nil => .nil
  | .cons i h m _ sub sib => .cons i h m (stripF sub) (stripF sib)

/-- `nacm_datanode_read` (lines 970-1060).  `xrvec` holds the identities of
the requested subtree roots (sub-parts of `xt`); `resolve` resolves
canonical instance-identifiers against a given tree.  `none` models the
`clicon_err` retval -1; `some t` is the filtered tree. -/
def nacm_datanode_read (resolve : XTree → String → List Nat)
    (canon : String → String) (username : Option String) (xrvec : List Nat)
    (xnacm : Nacm) (xt : XTree) : Option XTree :=
  match username with
  | none => some { xt with sub := purgeIdsF xrvec xt.sub }
  | some u =>
    let gvec := groupsFor xnacm u
    match xnacm.readDefault with
    | none => none
    | some read_default =>
      let pvs := nacm_datanode_prepare canon (resolve xt) .read gvec xnacm.ruleLists
      let rootFlag := readNodeFlag pvs [] xt.xid xt.hasSpec xt.modName
      let m :=
        if rootFlag == .del then toMF xt.sub
        else nacm_datanode_read_recurse pvs [xt.xid] xt.sub
      let m2 := if read_default == "deny" then pruneF m else m
      some { xt with sub := stripF m2 }

/-! ## Shared lemmas about the RPC evaluator -/

/-- With an empty group vector no rule-list matches, so no rule is found. -/
theorem rpcFirstMatch_nil_groups (rpc moduleN : String) (rls : List NacmRuleList) :
    rpcFirstMatch rpc moduleN [] rls = none := by
  unfold rpcFirstMatch
  have h : rls.filter (ruleListGroupMatch []) = [] := by
    induction rls with
    | nil => rfl
    | cons rl rest ih => simp [List.filter, ruleListGroupMatch, ih]
  rw [h]
  rfl

/-- Control reaches step 10 of `nacm_rpc` when the user is unknown. -/
theorem nacm_rpc_step10_user_none (rpc moduleN : String) (xnacm : Nacm)
    (hcs : rpc ≠ "close-session") :
    nacm_rpc rpc moduleN none xnacm = rpcStep10 rpc xnacm := by
  simp [nacm_rpc, hcs]

/-- Control reaches step 10 of `nacm_rpc` when the user has no groups. -/
theorem nacm_rpc_step10_no_groups (rpc moduleN u : String) (xnacm : Nacm)
    (hcs : rpc ≠ "close-session") (hg : groupsFor xnacm u = []) :
    nacm_rpc rpc moduleN (some u) xnacm = rpcStep10 rpc xnacm := by
  simp [nacm_rpc, hcs, hg]

/-- Control reaches step 10 of `nacm_rpc` when no rule matches. -/
theorem nacm_rpc_step10_no_match (rpc moduleN u : String) (xnacm : Nacm)
    (hcs : rpc ≠ "close-session")
    (hm : rpcFirstMatch rpc moduleN (groupsFor xnacm u) xnacm.ruleLists = none) :
    nacm_rpc rpc moduleN (some u) xnacm = rpcStep10 rpc xnacm := by
  by_cases hg : (groupsFor xnacm u).isEmpty
  · simp [nacm_rpc, hcs, hg]
  · simp [nacm_rpc, hcs, hg, hm]

/-- Control reaches step 10 of `nacm_rpc` when the first matching rule has an
absent or unrecognised `action` leaf. -/
theorem nacm_rpc_step10_bad_action (rpc moduleN u : String) (xnacm : Nacm)
    (r : NacmRule) (hcs : rpc ≠ "close-session")
    (hm : rpcFirstMatch rpc moduleN (groupsFor xnacm u) xnacm.ruleLists = some r)
    (ha : r.action = none ∨ ∃ a, r.action = some a ∧ a ≠ "permit" ∧ a ≠ "deny") :
    nacm_rpc rpc moduleN (some u) xnacm = rpcStep10 rpc xnacm := by
  have hg : ¬(groupsFor xnacm u).isEmpty := by
    intro hg
    rw [List.isEmpty_iff] at hg
    rw [hg, rpcFirstMatch_nil_groups] at hm
    exact Option.noConfusion hm
  rcases ha with ha | ⟨a, ha, hap, had⟩
  · simp [nacm_rpc, hcs, hg, hm, ha]
  · simp [nacm_rpc, hcs, hg, hm, ha, hap, had]

/-! ## C7: close-session is always permitted -/

/-- C7: for every module, every user (including no user at all) and every
policy, `nacm_rpc` permits the `close-session` operation; the check is the
first step, before group resolution and rule matching. -/
theorem nacm_rpc_close_session_permit (moduleN : String)
    (username : Option String) (xnacm : Nacm) :
    nacm_rpc "close-session" moduleN username xnacm = .permit := rfl

/-! ## C6: the default step of the RPC evaluator -/

/-- C6: whenever `nacm_rpc` reaches its default step (unknown user, user
with no groups, or no matching rule), `kill-session` and `delete-config`
are denied with "default deny" regardless of `exec-default`; any other
operation is permitted exactly when `exec-default` is absent or "permit",
and otherwise denied with "default deny". -/
theorem nacm_rpc_default_step (rpc moduleN : String) (username : Option String)
    (xnacm : Nacm) (hcs : rpc ≠ "close-session")
    (hreach : username = none ∨ ∃ u, username = some u ∧
      (groupsFor xnacm u = [] ∨
        rpcFirstMatch rpc moduleN (groupsFor xnacm u) xnacm.ruleLists = none)) :
    ((rpc = "kill-session" ∨ rpc = "delete-config") →
      nacm_rpc rpc moduleN username xnacm = .deny "default deny") ∧
    (rpc ≠ "kill-session" → rpc ≠ "delete-config" →
      (((xnacm.execDefault = none ∨ xnacm.execDefault = some "permit") →
        nacm_rpc rpc moduleN username xnacm = .permit) ∧
       (∀ e, xnacm.execDefault = some e → e ≠ "permit" →
        nacm_rpc rpc moduleN username xnacm = .deny "default deny"))) := by
  have hstep : nacm_rpc rpc moduleN username xnacm = rpcStep10 rpc xnacm := by
    rcases hreach with h | ⟨u, hu, h⟩
    · rw [h]; exact nacm_rpc_step10_user_none rpc moduleN xnacm hcs
    · rcases h with h | h
      · rw [hu]; exact nacm_rpc_step10_no_groups rpc moduleN u xnacm hcs h
      · rw [hu]; exact nacm_rpc_step10_no_match rpc moduleN u xnacm hcs h
  rw [hstep]
  constructor
  · intro hk
    rcases hk with hk | hk <;> simp [rpcStep10, hk]
  · intro hk hd
    constructor
    · intro he
      rcases he with he | he <;> simp [rpcStep10, hk, hd, he]
    · intro e he hep
      simp [rpcStep10, hk, hd, he, hep]

/-- Witness for C6 at a concrete input: user "u" has no groups, the policy
sets `exec-default` to "deny", and the operation "edit-config" is denied by
the default step. -/
theorem nacm_rpc_default_step_witness :
    nacm_rpc "edit-config" "ietf-netconf" (some "u")
      ⟨none, none, some "deny", [], []⟩ = .deny "default deny" :=
  ((nacm_rpc_default_step "edit-config" "ietf-netconf" (some "u")
      ⟨none, none, some "deny", [], []⟩ (by decide)
      (Or.inr ⟨"u", rfl, Or.inl rfl⟩)).2 (by decide) (by decide)).2
    "deny" rfl (by decide)

/-! ## C10: a matched rule with a missing or unknown action falls through -/

/-- C10: when the first matching rule of an RPC evaluation has no `action`
leaf, or an action other than "permit"/"deny", `nacm_rpc` neither errors
nor stops: it proceeds to the default step (`rpcStep10`, the
kill-session/delete-config check followed by `exec-default`), exactly as if
no rule had matched. -/
theorem nacm_rpc_unknown_action_falls_through (rpc moduleN u : String)
    (xnacm : Nacm) (r : NacmRule) (hcs : rpc ≠ "close-session")
    (hm : rpcFirstMatch rpc moduleN (groupsFor xnacm u) xnacm.ruleLists = some r)
    (ha : r.action = none ∨ ∃ a, r.action = some a ∧ a ≠ "permit" ∧ a ≠ "deny") :
    nacm_rpc rpc moduleN (some u) xnacm = rpcStep10 rpc xnacm :=
  nacm_rpc_step10_bad_action rpc moduleN u xnacm r hcs hm ha

/-- A concrete rule with a matching module/rpc-name/access but no `action`
leaf. -/
def ruleNoAction : NacmRule := ⟨some "*", some "*", none, none, some "*", none⟩

/-- A concrete policy whose single rule-list applies to user "u" and whose
single rule is `ruleNoAction`; `exec-default` is absent. -/
def polNoAction : Nacm :=
  ⟨none, none, none, [⟨"g", ["u"]⟩], [⟨["g"], [ruleNoAction]⟩]⟩

/-- Witness for C10 at a concrete input: the matched rule has no action, so
the request "get" falls through to the default step and is permitted via the
absent `exec-default`. -/
theorem nacm_rpc_unknown_action_falls_through_witness :
    nacm_rpc "get" "ietf-netconf" (some "u") polNoAction =
      rpcStep10 "get" polNoAction :=
  nacm_rpc_unknown_action_falls_through "get" "ietf-netconf" "u" polNoAction
    ruleNoAction (by decide) (by decide) (Or.inl rfl)

/-! ## C3: a missing write-default is a fatal configuration error -/

/-- C3: with a present policy, an absent `write-default` leaf makes
`nacm_datanode_write` fail with the fatal configuration error (distinct
from a deny verdict), for every user — the check precedes group resolution
and rule processing. -/
theorem nacm_datanode_write_missing_default_fatal
    (resolve : String → List Nat) (canon : String → String) (anc0 : List Nat)
    (xreq : XTree) (access : NacmAccess) (username : Option String) (x : Nacm)
    (h : x.writeDefault = none) :
    nacm_datanode_write resolve canon anc0 xreq access username (some x) =
      .fatal "No nacm write-default rule" := by
  simp [nacm_datanode_write, h]

/-- Witness for C3 at a concrete input: a policy with groups and rules but no
`write-default` leaf is rejected as a fatal configuration error. -/
theorem nacm_datanode_write_missing_default_fatal_witness :
    nacm_datanode_write (fun _ => []) (fun p => p) [] ⟨0, true, "m", .nil⟩
      .create (some "u") (some ⟨some "permit", none, none, [⟨"g", ["u"]⟩], []⟩) =
      .fatal "No nacm write-default rule" :=
  nacm_datanode_write_missing_default_fatal (fun _ => []) (fun p => p) []
    ⟨0, true, "m", .nil⟩ .create (some "u")
    ⟨some "permit", none, none, [⟨"g", ["u"]⟩], []⟩ rfl

/-! ## C4: absent read/exec defaults

The claim states that an absent `read-default` or `exec-default` is treated
silently as permit.  That is true of `exec-default` (nacm_rpc lines
286-293), but false of `read-default`: nacm_datanode_read (lines 1009-1013)
raises the fatal configuration error `clicon_err(OE_XML, EINVAL, "No nacm
read-default rule")` whenever the username is non-null and the leaf is
absent. -/

/-- A concrete policy whose `read-default` leaf is absent. -/
def polNoReadDefault : Nacm := ⟨none, some "deny", none, [⟨"g", ["u"]⟩], []⟩

/-- A concrete two-node data tree. -/
def treeC4 : XTree := ⟨0, false, "m", .cons 1 true "m" .nil .nil⟩

/-- Counterexample to C4: with an absent `read-default` and a non-null user,
`nacm_datanode_read` fails (models `clicon_err` / retval -1) instead of
behaving as the permit regime. -/
theorem nacm_datanode_read_missing_default_errors :
    nacm_datanode_read (fun _ _ => []) (fun p => p) (some "u") [1]
      polNoReadDefault treeC4 = none := by decide

/-- C4 as amended: an absent `exec-default` is silently treated as permit
(an RPC other than kill-session/delete-config reaching the default step is
permitted), while an absent `read-default` is not silent: for every
non-null username `nacm_datanode_read` fails with a configuration error. -/
theorem nacm_absent_defaults (rpc moduleN : String) (username : Option String)
    (x : Nacm) (resolve : XTree → String → List Nat) (canon : String → String)
    (u' : String) (xrvec : List Nat) (x' : Nacm) (xt : XTree)
    (hcs : rpc ≠ "close-session")
    (hreach : username = none ∨ ∃ u, username = some u ∧
      (groupsFor x u = [] ∨
        rpcFirstMatch rpc moduleN (groupsFor x u) x.ruleLists = none))
    (he : x.execDefault = none)
    (hk : rpc ≠ "kill-session") (hd : rpc ≠ "delete-config")
    (hr : x'.readDefault = none) :
    nacm_rpc rpc moduleN username x = .permit ∧
    nacm_datanode_read resolve canon (some u') xrvec x' xt = none := by
  constructor
  · have hstep : nacm_rpc rpc moduleN username x = rpcStep10 rpc x := by
      rcases hreach with h | ⟨u, hu, h⟩
      · rw [h]; exact nacm_rpc_step10_user_none rpc moduleN x hcs
      · rcases h with h | h
        · rw [hu]; exact nacm_rpc_step10_no_groups rpc moduleN u x hcs h
        · rw [hu]; exact nacm_rpc_step10_no_match rpc moduleN u x hcs h
    rw [hstep]
    simp [rpcStep10, hk, hd, he]
  · simp [nacm_datanode_read, hr]

/-- Witness for the amended C4 at concrete inputs. -/
theorem nacm_absent_defaults_witness :
    nacm_rpc "get" "m" none ⟨none, none, none, [], []⟩ = .permit ∧
    nacm_datanode_read (fun _ _ => []) (fun p => p) (some "u") [1]
      polNoReadDefault treeC4 = none :=
  nacm_absent_defaults "get" "m" none ⟨none, none, none, [], []⟩
    (fun _ _ => []) (fun p => p) "u" [1] polNoReadDefault treeC4
    (by decide) (Or.inl rfl) rfl (by decide) (by decide) rfl

/-! ## C2: access-operations matching

The claim describes token-set matching ("matching never succeeds by mere
substring containment"), but `match_access` uses C `strstr`: substring
containment of the primary/secondary mode, with `*` recognised only as the
entire leaf value. -/

/-- An empty needle is found anywhere (C `strstr` semantics). -/
theorem containsList_nil_needle (h : List Char) : containsList [] h = true := by
  induction h with
  | nil => rfl
  | cons c cs ih => simp [containsList, leadsList]

/-- A leading occurrence is an occurrence. -/
theorem containsList_of_leadsList (n h : List Char) (hl : leadsList n h = true) :
    containsList n h = true := by
  cases h with
  | nil => simpa [containsList] using hl
  | cons c cs => simp [containsList, hl]

/-- Occurrences survive extending the haystack on the left. -/
theorem containsList_cons (n : List Char) (c : Char) (cs : List Char)
    (hc : containsList n cs = true) : containsList n (c :: cs) = true := by
  simp [containsList, hc]

/-- The current token of `splitSp` is a leading segment of the input. -/
theorem splitSp_fst_leads (cs : List Char) :
    leadsList (splitSp cs).1 cs = true := by
  induction cs with
  | nil => rfl
  | cons c rest ih =>
    by_cases h : c == ' '
    · simp [splitSp, h, leadsList]
    · simp [splitSp, h, leadsList, ih]

/-- Every space-separated token occurs contiguously in the input. -/
theorem containsList_of_token (cs : List Char) (xs : List Char)
    (hx : xs ∈ (splitSp cs).1 :: (splitSp cs).2) :
    containsList xs cs = true := by
  induction cs with
  | nil =>
    simp [splitSp] at hx
    simp [hx, containsList, leadsList]
  | cons c rest ih =>
    by_cases h : c == ' '
    · simp [splitSp, h] at hx
      rcases hx with hx | hx
      · simp [hx, containsList_nil_needle]
      · exact containsList_cons _ _ _ (ih (by simpa using hx))
    · simp [splitSp, h] at hx
      rcases hx with hx | hx
      · apply containsList_of_leadsList
        rw [hx]
        simpa [leadsList] using splitSp_fst_leads rest
      · exact containsList_cons _ _ _ (ih (by simp [hx]))

/-- Token membership in a string implies `strstr` finds it. -/
theorem strstr_of_token_mem (a t : String) (ht : t.data ∈ tokensOf a) :
    strstr a t = true :=
  containsList_of_token a.data t.data ht

/-- Counterexample to C2: the leaf value "pread", whose token list is
exactly {"pread"}, matches the requested mode "read" in the code by mere
substring containment, though token-set semantics rejects it. -/
theorem match_access_substring_counterexample :
    match_access (some "pread") "read" none = true ∧
    match_access_tokens (some "pread") "read" none = false := by decide

/-- C2 as amended: `access-operations` matching is substring-based, not
token-based: an absent leaf never matches; the exact value `*` matches; and
containment of the primary (or secondary) mode as a token implies a match —
but a match can also arise from substring containment between token names,
and a `*` token mixed with other tokens is not recognised: whenever the
leaf value is not exactly `*`, the verdict is decided solely by substring
containment of the primary and secondary modes, so a leaf such as
`* create` (whose token list contains `*`) does not match mode `read`. -/
theorem match_access_substring_semantics (a mode : String) (mode2 : Option String) :
    (match_access none mode mode2 = false) ∧
    (a = "*" → match_access (some a) mode mode2 = true) ∧
    (mode.data ∈ tokensOf a → match_access (some a) mode mode2 = true) ∧
    (∀ m2, mode2 = some m2 → m2.data ∈ tokensOf a →
      match_access (some a) mode mode2 = true) ∧
    (a ≠ "*" → match_access (some a) mode mode2 =
      (strstr a mode ||
        (match mode2 with
         | some m2 => strstr a m2
         | none => false))) ∧
    ("*".data ∈ tokensOf "* create" ∧
      match_access (some "* create") "read" none = false) := by
  refine ⟨rfl, ?_, ?_, ?_, ?_, by decide, by decide⟩
  · intro h
    simp [match_access, h]
  · intro h
    simp [match_access, strstr_of_token_mem a mode h]
  · intro m2 hm2 h
    simp [match_access, hm2, strstr_of_token_mem a m2 h]
  · intro h
    have hne : (a == "*") = false := beq_eq_false_iff_ne.mpr h
    simp [match_access, hne]

/-- Witness for the amended C2 at a concrete input: "read" is a token of
"create read" and the code matches it. -/
theorem match_access_substring_semantics_witness :
    "read".data ∈ tokensOf "create read" ∧
    match_access (some "create read") "read" none = true :=
  ⟨by decide,
   (match_access_substring_semantics "create read" "read" none).2.2.1 (by decide)⟩

/-! ## C5: the write pass is first-match-decides with descendant deny -/

/-- Rules that do not match a node are skipped by the write cache scan. -/
theorem writeMatchFirst_append_nomatch (pre rest : List PrepEntry) (xid : Nat)
    (xmod : String) (anc : List Nat)
    (hpre : ∀ q ∈ pre,
      nacm_data_write_xrule_xml q.pv_xrule q.pv_xpathvec xid xmod anc = .nomatch) :
    writeMatchFirst (pre ++ rest) xid xmod anc = writeMatchFirst rest xid xmod anc := by
  induction pre with
  | nil => rfl
  | cons q qs ih =>
    have hq := hpre q (List.mem_cons_self q qs)
    rw [List.cons_append]
    rw [writeMatchFirst, hq]
    exact ih (fun q' hq' => hpre q' (List.mem_cons_of_mem q hq'))

/-- C5: for a visited node X, the first cache entry matching X decides X:
a deny match immediately denies the whole write with "access denied"
(children are not visited); a permit match stops rule scanning and
recursion continues into X's children (and a deny arising anywhere below is
returned, denying all descendants of a denied node); if no entry matches
and write-default is deny, the write is denied with "default deny". -/
theorem nacm_write_first_match_decides (pre post : List PrepEntry)
    (pv : PrepEntry) (defpermit : Bool) (anc : List Nat) (xid : Nat)
    (hs : Bool) (xmod : String) (sub sib : XForest)
    (hpre : ∀ q ∈ pre,
      nacm_data_write_xrule_xml q.pv_xrule q.pv_xpathvec xid xmod anc = .nomatch) :
    (nacm_data_write_xrule_xml pv.pv_xrule pv.pv_xpathvec xid xmod anc = .deny →
      nacm_datanode_write_recurse (pre ++ pv :: post) defpermit anc
        (.cons xid hs xmod sub sib) = some "access denied") ∧
    (nacm_data_write_xrule_xml pv.pv_xrule pv.pv_xpathvec xid xmod anc = .permit →
      nacm_datanode_write_recurse (pre ++ pv :: post) defpermit anc
        (.cons xid hs xmod sub sib) =
        (match nacm_datanode_write_recurse (pre ++ pv :: post) defpermit
            (xid :: anc) sub with
         | some msg => some msg
         | none => nacm_datanode_write_recurse (pre ++ pv :: post) defpermit anc sib)) ∧
    ((∀ q ∈ pre ++ pv :: post,
        nacm_data_write_xrule_xml q.pv_xrule q.pv_xpathvec xid xmod anc = .nomatch) →
      defpermit = false →
      nacm_datanode_write_recurse (pre ++ pv :: post) defpermit anc
        (.cons xid hs xmod sub sib) = some "default deny") := by
  have hfirst : writeMatchFirst (pre ++ pv :: post) xid xmod anc =
      writeMatchFirst (pv :: post) xid xmod anc :=
    writeMatchFirst_append_nomatch pre (pv :: post) xid xmod anc hpre
  refine ⟨?_, ?_, ?_⟩
  · intro hd
    rw [nacm_datanode_write_recurse, hfirst, writeMatchFirst, hd]
  · intro hp
    rw [nacm_datanode_write_recurse, hfirst, writeMatchFirst, hp]
  · intro hall hdp
    have hnone : writeMatchFirst (pre ++ pv :: post) xid xmod anc = .nomatch := by
      rw [hfirst, writeMatchFirst, hall pv (by simp)]
      have : ∀ rest : List PrepEntry,
          (∀ q ∈ rest,
            nacm_data_write_xrule_xml q.pv_xrule q.pv_xpathvec xid xmod anc = .nomatch) →
          writeMatchFirst rest xid xmod anc = .nomatch := by
        intro rest
        induction rest with
        | nil => intro _; rfl
        | cons q qs ih =>
          intro hr
          rw [writeMatchFirst, hr q (List.mem_cons_self q qs)]
          exact ih (fun q' hq' => hr q' (List.mem_cons_of_mem q hq'))
      exact this post (fun q hq => hall q (by simp [hq]))
    rw [nacm_datanode_write_recurse, hnone, hdp]
    rfl

/-- A concrete pathless deny rule covering every module. -/
def pvDenyAll : PrepEntry :=
  ⟨⟨some "*", none, none, none, some "write", some "deny"⟩, []⟩

/-- Witness for C5 at a concrete input: the deny rule matches the node and
the whole write is denied with "access denied". -/
theorem nacm_write_first_match_decides_witness :
    nacm_data_write_xrule_xml pvDenyAll.pv_xrule pvDenyAll.pv_xpathvec
      5 "m" [] = .deny ∧
    nacm_datanode_write_recurse [pvDenyAll] true [] (.cons 5 true "m" .nil .nil) =
      some "access denied" :=
  ⟨by decide,
   (nacm_write_first_match_decides [] [] pvDenyAll true [] 5 true "m" .nil .nil
      (by intro q hq; cases hq)).1 (by decide)⟩

/-! ## C8: the preparation cache is exactly the spec's ordered cache -/

/-- The prepare rule loop is a `filterMap` over the rules, in order. -/
theorem prepRules_eq_filterMap (canon : String → String)
    (resolve : String → List Nat) (access : NacmAccess) (rules : List NacmRule) :
    prepRules canon resolve access rules =
      rules.filterMap (prepRule canon resolve access) := by
  induction rules with
  | nil => rfl
  | cons r rest ih =>
    rw [prepRules, List.filterMap_cons]
    cases h : prepRule canon resolve access r <;> simp [h, ih]

/-- C8: `nacm_datanode_prepare` builds exactly the cache described by §4.3:
the group-matching rule-lists in document order, each contributing, in rule
order, the rules whose access-operations match the requested mode — path
rules resolved against the tree and dropped when the resolution is empty,
rule-type-any rules with an empty node set, rpc-name/notification-name
rules skipped — preserving inter- and intra-rule-list order. -/
theorem nacm_datanode_prepare_eq_spec (canon : String → String)
    (resolve : String → List Nat) (access : NacmAccess)
    (gvec : List NacmGroup) (rls : List NacmRuleList) :
    nacm_datanode_prepare canon resolve access gvec rls =
      prepare_cache_spec canon resolve access gvec rls := by
  induction rls with
  | nil => rfl
  | cons rlist rest ih =>
    rw [nacm_datanode_prepare]
    by_cases hg : ruleListGroupMatch gvec rlist
    · rw [if_neg (by simp [hg]), prepare_cache_spec, List.filter_cons_of_pos hg,
        List.flatMap_cons, prepRules_eq_filterMap]
      have htail : nacm_datanode_prepare canon resolve access gvec rest =
          (rest.filter (ruleListGroupMatch gvec)).flatMap (fun rlist =>
            rlist.rules.filterMap (fun r =>
              if !prepAccessMatch access r.accessOperations then none
              else
                match r.rpath with
                | some path0 =>
                  let nodes := resolve (canon path0)
                  if nodes.isEmpty then none else some ⟨r, nodes⟩
                | none =>
                  if r.rpcName != none || r.notificationName != none then none
                  else some ⟨r, []⟩)) := ih
      rw [htail]
      have hhead : rlist.rules.filterMap (prepRule canon resolve access) =
          rlist.rules.filterMap (fun r =>
            if !prepAccessMatch access r.accessOperations then none
            else
              match r.rpath with
              | some path0 =>
                let nodes := resolve (canon path0)
                if nodes.isEmpty then none else some ⟨r, nodes⟩
              | none =>
                if r.rpcName != none || r.notificationName != none then none
                else some ⟨r, []⟩) := by
        apply List.filterMap_congr
        intro r _
        rw [prepRule]
        cases hr : r.rpath <;> simp [hr]
      rw [hhead]
    · rw [if_pos (by simp [hg]), prepare_cache_spec,
        List.filter_cons_of_neg hg]
      exact ih

/-! ## C1: reads by a user with no groups

The claim states that a user belonging to no group skips the traversal and
loses every requested subtree root regardless of `read-default`.  The code
does that only for a NULL username (lines 996-997 jump to the purge loop of
lines 1044-1046); a named user with no groups falls through (the comment at
lines 1001-1002: "If no groups are found (glen=0), continue and check
read-default") and is evaluated with an empty cache, so `read-default`
decides the outcome. -/

/-- With an empty group vector the preparation cache is empty. -/
theorem nacm_datanode_prepare_nil_groups (canon : String → String)
    (resolve : String → List Nat) (access : NacmAccess)
    (rls : List NacmRuleList) :
    nacm_datanode_prepare canon resolve access [] rls = [] := by
  induction rls with
  | nil => rfl
  | cons rlist rest ih => simp [nacm_datanode_prepare, ruleListGroupMatch, ih]

/-- With an empty cache the read traversal flags nothing. -/
theorem nacm_datanode_read_recurse_nil (anc : List Nat) (f : XForest) :
    nacm_datanode_read_recurse [] anc f = toMF f := by
  induction f generalizing anc with
  | nil => rfl
  | cons i h m sub sib ihsub ihsib =>
    rw [nacm_datanode_read_recurse, toMF]
    have : readNodeFlag [] anc i h m = .keep := by
      cases h <;> rfl
    rw [this, ihsub, ihsib]

/-- Clearing marks of an untraversed forest gives it back. -/
theorem stripF_toMF (f : XForest) : stripF (toMF f) = f := by
  induction f with
  | nil => rfl
  | cons i h m sub sib ihsub ihsib => rw [toMF, stripF, ihsub, ihsib]

/-- An untraversed forest carries no mark. -/
theorem hasMarkF_toMF (f : XForest) : hasMarkF (toMF f) = false := by
  induction f with
  | nil => rfl
  | cons i h m sub sib ihsub ihsib => rw [toMF, hasMarkF, ihsub, ihsib]; rfl

/-- Pruning an unmarked forest removes everything. -/
theorem pruneF_toMF (f : XForest) : pruneF (toMF f) = .nil := by
  induction f with
  | nil => rfl
  | cons i h m sub sib ihsub ihsib =>
    rw [toMF, pruneF, hasMarkF_toMF]
    simpa using ihsib

/-- A concrete policy whose only group does not contain user "u", with
`read-default` = permit. -/
def polC1 : Nacm := ⟨some "permit", some "deny", none, [⟨"g", ["v"]⟩], []⟩

/-- Counterexample to C1: user "u" belongs to no group of `polC1`, node 1 is
the requested subtree root, `read-default` is permit — and the evaluation
returns the tree unchanged, with node 1 still present, instead of removing
every requested subtree root. -/
theorem nacm_datanode_read_no_groups_counterexample :
    nacm_datanode_read (fun _ _ => []) (fun p => p) (some "u") [1] polC1 treeC4 =
      some treeC4 ∧ idMemX treeC4 1 = true := by decide

/-- C1 as amended: only a NULL username skips the traversal and purges every
requested subtree root (regardless of `read-default`); a named user with no
groups is evaluated with an empty rule cache, so `read-default` decides:
permit leaves the tree unchanged, deny prunes every child of the root. -/
theorem nacm_datanode_read_no_groups (resolve : XTree → String → List Nat)
    (canon : String → String) (xrvec : List Nat) (x : Nacm) (xt : XTree)
    (u : String) (hg : groupsFor x u = []) :
    (nacm_datanode_read resolve canon none xrvec x xt =
      some { xt with sub := purgeIdsF xrvec xt.sub }) ∧
    (x.readDefault = some "permit" →
      nacm_datanode_read resolve canon (some u) xrvec x xt = some xt) ∧
    (x.readDefault = some "deny" →
      nacm_datanode_read resolve canon (some u) xrvec x xt =
        some { xt with sub := .nil }) := by
  have hflag : readNodeFlag [] [] xt.xid xt.hasSpec xt.modName = RFlag.keep := by
    cases xt.hasSpec <;> rfl
  refine ⟨rfl, ?_, ?_⟩
  · intro hrd
    simp [nacm_datanode_read, hg, hrd, nacm_datanode_prepare_nil_groups, hflag,
      nacm_datanode_read_recurse_nil, stripF_toMF]
  · intro hrd
    simp [nacm_datanode_read, hg, hrd, nacm_datanode_prepare_nil_groups, hflag,
      nacm_datanode_read_recurse_nil, pruneF_toMF, stripF]

/-- Witness for the amended C1 at a concrete input: user "u" has no groups
in `polC1` and the permit default leaves the tree unchanged. -/
theorem nacm_datanode_read_no_groups_witness :
    nacm_datanode_read (fun _ _ => [3]) (fun p => p) (some "u") [1] polC1 treeC4 =
      some treeC4 :=
  (nacm_datanode_read_no_groups (fun _ _ => [3]) (fun p => p) [1] polC1 treeC4
    "u" rfl).2.1 rfl

/-! ## C9: read evaluation is idempotent

The second run of `nacm_datanode_read` resolves the rule paths against the
already-filtered tree.  For a resolver with the instance-identifier
property — resolution against a pruned tree returns the surviving subset
of the original resolution — the cache of the second run is the first
run's cache with each node set intersected with the survivors
(`shrinkEntry`), empty-set path rules dropped.  Surviving nodes then
receive the same first-match flag as in the first run, so nothing further
is deleted or pruned. -/

/-- How one cache entry of the first run reappears in the second run's
cache: a path rule keeps the surviving resolved nodes and is dropped when
none survives; a rule-type-any entry is unchanged. -/
def shrinkEntry (keep : Nat → Bool) (pv : PrepEntry) : Option PrepEntry :=
  match pv.pv_xrule.rpath with
  | none => some pv
  | some _ =>
    let ns := pv.pv_xpathvec.filter keep
    if ns.isEmpty then none else some ⟨pv.pv_xrule, ns⟩

/-- Every node identity of the marked forest satisfies `p`. -/
def allIdsIn (p : Nat → Bool) : MForest → Bool
  | .nil => true
  | .cons i _ _ _ sub sib => p i && allIdsIn p sub && allIdsIn p sib

/-- Is a node with identity `n` in the marked forest? -/
def idMemM (n : Nat) : MForest → Bool
  | .nil => false
  | .cons i _ _ _ sub sib => i == n || idMemM n sub || idMemM n sib

/-- A marked forest is consistent with a cache when every node carries
exactly the mark the cache's first-match flag assigns it in its position,
and no node is flagged for deletion. -/
def ReadConsistent (pvs : List PrepEntry) : List Nat → MForest → Prop
  | _, .nil => True
  | anc, .cons i h md mk sub sib =>
    (readNodeFlag pvs anc i h md ≠ .del ∧
     mk = (readNodeFlag pvs anc i h md == .mark)) ∧
    ReadConsistent pvs (i :: anc) sub ∧ ReadConsistent pvs anc sib

/-- Per-rule shrink: under a filtered resolver, `prepRule` produces the
shrunk entry of the original run. -/
theorem prepRule_shrink (canon : String → String) (res1 res2 : String → List Nat)
    (keep : Nat → Bool) (access : NacmAccess) (r : NacmRule)
    (hres : ∀ p, res2 p = (res1 p).filter keep) :
    prepRule canon res2 access r =
      (prepRule canon res1 access r).bind (shrinkEntry keep) := by
  by_cases hacc : prepAccessMatch access r.accessOperations
  · cases hr : r.rpath with
    | none =>
      by_cases hrpc : (r.rpcName != none || r.notificationName != none) = true
      · simp [prepRule, hacc, hr, hrpc]
      · simp [prepRule, hacc, hr, hrpc, shrinkEntry]
    | some path0 =>
      by_cases h1 : (res1 (canon path0)).isEmpty
      · rw [List.isEmpty_iff] at h1
        simp [prepRule, hacc, hr, hres, h1]
      · simp [prepRule, hacc, hr, hres, shrinkEntry, h1]
  · simp [prepRule, hacc]

/-- Cache shrink: under a filtered resolver, the second run's preparation
cache is the first run's cache passed through `shrinkEntry`. -/
theorem nacm_datanode_prepare_shrink (canon : String → String)
    (res1 res2 : String → List Nat) (keep : Nat → Bool) (access : NacmAccess)
    (gvec : List NacmGroup) (rls : List NacmRuleList)
    (hres : ∀ p, res2 p = (res1 p).filter keep) :
    nacm_datanode_prepare canon res2 access gvec rls =
      (nacm_datanode_prepare canon res1 access gvec rls).filterMap
        (shrinkEntry keep) := by
  induction rls with
  | nil => rfl
  | cons rlist rest ih =>
    rw [nacm_datanode_prepare, nacm_datanode_prepare]
    by_cases hg : ruleListGroupMatch gvec rlist
    · rw [if_neg (by simp [hg]), if_neg (by simp [hg]),
        List.filterMap_append, ih, prepRules_eq_filterMap,
        prepRules_eq_filterMap, List.filterMap_filterMap]
      have : ∀ rules : List NacmRule,
          rules.filterMap (prepRule canon res2 access) =
          rules.filterMap (fun r => (prepRule canon res1 access r).bind
            (shrinkEntry keep)) := by
        intro rules
        apply List.filterMap_congr
        intro r _
        exact prepRule_shrink canon res1 res2 keep access r hres
      rw [this]
    · rw [if_pos (by simp [hg]), if_pos (by simp [hg])]
      exact ih

/-- Filtering a rule's resolved node set by a predicate that holds on the
node and all its ancestors does not change whether the rule matches. -/
theorem nacm_data_read_xrule_xml_filter (keep : Nat → Bool) (r : NacmRule)
    (ns : List Nat) (i : Nat) (md : String) (anc : List Nat)
    (hk : keep i = true) (hanc : ∀ a ∈ anc, keep a = true) :
    nacm_data_read_xrule_xml r (ns.filter keep) i md anc =
      nacm_data_read_xrule_xml r ns i md anc := by
  cases hm : r.moduleName with
  | none => simp [nacm_data_read_xrule_xml, hm]
  | some module_pattern =>
    by_cases hmod : (module_pattern != "*" && md != module_pattern) = true
    · simp [nacm_data_read_xrule_xml, hm, hmod]
    · cases hr : r.rpath with
      | none => simp [nacm_data_read_xrule_xml, hm, hmod, hr]
      | some p =>
        simp only [nacm_data_read_xrule_xml, hm, hmod, hr, if_neg hmod]
        cases hb : ns.any (fun xp => xp == i || anc.contains xp) with
        | true =>
          rw [List.any_eq_true] at hb
          obtain ⟨xp, hmem, hf⟩ := hb
          have hor : xp = i ∨ xp ∈ anc := by
            simpa using hf
          have hkeep : keep xp = true := by
            rcases hor with h | h
            · rw [h]; exact hk
            · exact hanc xp h
          have : (ns.filter keep).any (fun xp => xp == i || anc.contains xp) = true := by
            rw [List.any_eq_true]
            exact ⟨xp, List.mem_filter.mpr ⟨hmem, hkeep⟩, hf⟩
          rw [this]
        | false =>
          have : (ns.filter keep).any (fun xp => xp == i || anc.contains xp) = false := by
            cases hb2 : (ns.filter keep).any (fun xp => xp == i || anc.contains xp) with
            | false => rfl
            | true =>
              rw [List.any_eq_true] at hb2
              obtain ⟨xp, hmem, hf⟩ := hb2
              have hmem' : xp ∈ ns := (List.mem_filter.mp hmem).1
              have : ns.any (fun xp => xp == i || anc.contains xp) = true := by
                rw [List.any_eq_true]
                exact ⟨xp, hmem', hf⟩
              rw [this] at hb
              exact Bool.noConfusion hb
          rw [this]

/-- A cache entry dropped by `shrinkEntry` did not match the node in the
first run either. -/
theorem nacm_data_read_xrule_xml_dropped (keep : Nat → Bool) (pv : PrepEntry)
    (i : Nat) (md : String) (anc : List Nat)
    (hk : keep i = true) (hanc : ∀ a ∈ anc, keep a = true)
    (hdrop : shrinkEntry keep pv = none) :
    nacm_data_read_xrule_xml pv.pv_xrule pv.pv_xpathvec i md anc = false := by
  rw [shrinkEntry] at hdrop
  cases hr : pv.pv_xrule.rpath with
  | none => rw [hr] at hdrop; exact Option.noConfusion hdrop
  | some p =>
    rw [hr] at hdrop
    simp only at hdrop
    by_cases hemp : (pv.pv_xpathvec.filter keep).isEmpty
    · rw [← nacm_data_read_xrule_xml_filter keep _ _ i md anc hk hanc]
      rw [List.isEmpty_iff] at hemp
      cases hm : pv.pv_xrule.moduleName with
      | none => simp [nacm_data_read_xrule_xml, hm]
      | some module_pattern =>
        by_cases hmod : (module_pattern != "*" && md != module_pattern) = true
        · simp [nacm_data_read_xrule_xml, hm, hmod]
        · simp [nacm_data_read_xrule_xml, hm, hmod, hr, hemp]
    · rw [if_neg (by simpa using hemp)] at hdrop
      exact Option.noConfusion hdrop

/-- The first-match flag of a surviving node is unchanged by shrinking the
cache to the surviving tree. -/
theorem readFlag_shrink (keep : Nat → Bool) (pvs : List PrepEntry)
    (anc : List Nat) (i : Nat) (md : String)
    (hk : keep i = true) (hanc : ∀ a ∈ anc, keep a = true) :
    readFlag (pvs.filterMap (shrinkEntry keep)) anc i md =
      readFlag pvs anc i md := by
  induction pvs with
  | nil => rfl
  | cons pv rest ih =>
    rw [List.filterMap_cons]
    cases hs : shrinkEntry keep pv with
    | none =>
      rw [readFlag, nacm_data_read_xrule_xml_dropped keep pv i md anc hk hanc hs]
      exact ih
    | some pv' =>
      have hrule : pv'.pv_xrule = pv.pv_xrule := by
        rw [shrinkEntry] at hs
        cases hr : pv.pv_xrule.rpath with
        | none =>
          rw [hr] at hs
          simp only [Option.some.injEq] at hs
          rw [← hs]
        | some p =>
          rw [hr] at hs
          simp only at hs
          by_cases hemp : (pv.pv_xpathvec.filter keep).isEmpty
          · rw [if_pos hemp] at hs
            exact Option.noConfusion hs
          · rw [if_neg hemp] at hs
            simp only [Option.some.injEq] at hs
            rw [← hs]
      have hmatch : nacm_data_read_xrule_xml pv'.pv_xrule pv'.pv_xpathvec i md anc =
          nacm_data_read_xrule_xml pv.pv_xrule pv.pv_xpathvec i md anc := by
        rw [shrinkEntry] at hs
        cases hr : pv.pv_xrule.rpath with
        | none =>
          rw [hr] at hs
          simp only [Option.some.injEq] at hs
          rw [← hs]
        | some p =>
          rw [hr] at hs
          simp only at hs
          by_cases hemp : (pv.pv_xpathvec.filter keep).isEmpty
          · rw [if_pos hemp] at hs
            exact Option.noConfusion hs
          · rw [if_neg hemp] at hs
            simp only [Option.some.injEq] at hs
            rw [← hs]
            exact nacm_data_read_xrule_xml_filter keep pv.pv_xrule
              pv.pv_xpathvec i md anc hk hanc
      rw [readFlag, readFlag, hmatch, hrule]
      cases nacm_data_read_xrule_xml pv.pv_xrule pv.pv_xpathvec i md anc with
      | true => rfl
      | false => exact ih

/-- `readNodeFlag` version of `readFlag_shrink`. -/
theorem readNodeFlag_shrink (keep : Nat → Bool) (pvs : List PrepEntry)
    (anc : List Nat) (i : Nat) (h : Bool) (md : String)
    (hk : keep i = true) (hanc : ∀ a ∈ anc, keep a = true) :
    readNodeFlag (pvs.filterMap (shrinkEntry keep)) anc i h md =
      readNodeFlag pvs anc i h md := by
  cases h with
  | false => rfl
  | true =>
    rw [readNodeFlag, readNodeFlag, if_pos rfl, if_pos rfl]
    exact readFlag_shrink keep pvs anc i md hk hanc

/-- The output of the read traversal is consistent with the cache that
produced it. -/
theorem readConsistent_recurse (pvs : List PrepEntry) (anc : List Nat)
    (f : XForest) :
    ReadConsistent pvs anc (nacm_datanode_read_recurse pvs anc f) := by
  induction f generalizing anc with
  | nil => trivial
  | cons i h md sub sib ihsub ihsib =>
    rw [nacm_datanode_read_recurse]
    cases hfl : readNodeFlag pvs anc i h md with
    | del => exact ihsib anc
    | mark => exact ⟨⟨by rw [hfl]; exact RFlag.noConfusion, by rw [hfl]; rfl⟩,
        ihsub (i :: anc), ihsib anc⟩
    | keep => exact ⟨⟨by rw [hfl]; exact RFlag.noConfusion, by rw [hfl]; rfl⟩,
        ihsub (i :: anc), ihsib anc⟩

/-- Re-running the traversal on the stripped image of a consistent marked
forest reproduces it exactly. -/
theorem recurse_stripF_of_consistent (pvs : List PrepEntry) (anc : List Nat)
    (m : MForest) (hc : ReadConsistent pvs anc m) :
    nacm_datanode_read_recurse pvs anc (stripF m) = m := by
  induction m generalizing anc with
  | nil => rfl
  | cons i h md mk sub sib ihsub ihsib =>
    obtain ⟨⟨hdel, hmk⟩, hsub, hsib⟩ := hc
    rw [stripF, nacm_datanode_read_recurse]
    cases hfl : readNodeFlag pvs anc i h md with
    | del => exact absurd hfl hdel
    | mark =>
      rw [hfl] at hmk
      rw [hmk, ihsub (i :: anc) hsub, ihsib anc hsib]
      rfl
    | keep =>
      rw [hfl] at hmk
      rw [hmk, ihsub (i :: anc) hsub, ihsib anc hsib]
      rfl

/-- Consistency transfers to the shrunk cache when every node identity of
the forest and of the ancestor chain survives. -/
theorem readConsistent_shrink (keep : Nat → Bool) (pvs : List PrepEntry)
    (anc : List Nat) (m : MForest) (hc : ReadConsistent pvs anc m)
    (hids : allIdsIn keep m = true) (hanc : ∀ a ∈ anc, keep a = true) :
    ReadConsistent (pvs.filterMap (shrinkEntry keep)) anc m := by
  induction m generalizing anc with
  | nil => trivial
  | cons i h md mk sub sib ihsub ihsib =>
    obtain ⟨⟨hdel, hmk⟩, hsub, hsib⟩ := hc
    rw [allIdsIn] at hids
    obtain ⟨⟨hki, hidsub⟩, hidsib⟩ := by
      simpa [Bool.and_eq_true] using hids
    have hflag := readNodeFlag_shrink keep pvs anc i h md hki hanc
    refine ⟨⟨?_, ?_⟩, ?_, ?_⟩
    · rw [hflag]; exact hdel
    · rw [hflag]; exact hmk
    · exact ihsub (i :: anc) hsub hidsub
        (fun a ha => by
          rcases List.mem_cons.mp ha with h' | h'
          · rw [h']; exact hki
          · exact hanc a h')
    · exact ihsib anc hsib hidsib hanc

/-- Pruning preserves consistency (it only removes positions). -/
theorem readConsistent_pruneF (pvs : List PrepEntry) (anc : List Nat)
    (m : MForest) (hc : ReadConsistent pvs anc m) :
    ReadConsistent pvs anc (pruneF m) := by
  induction m generalizing anc with
  | nil => trivial
  | cons i h md mk sub sib ihsub ihsib =>
    obtain ⟨hhead, hsub, hsib⟩ := hc
    rw [pruneF]
    by_cases hkeep : (mk || hasMarkF sub) = true
    · rw [if_pos hkeep]
      exact ⟨hhead, ihsub (i :: anc) hsub, ihsib anc hsib⟩
    · rw [if_neg hkeep]
      exact ihsib anc hsib

/-- Pruning does not change whether a forest carries a mark. -/
theorem hasMarkF_pruneF (m : MForest) : hasMarkF (pruneF m) = hasMarkF m := by
  induction m with
  | nil => rfl
  | cons i h md mk sub sib ihsub ihsib =>
    rw [pruneF]
    by_cases hkeep : (mk || hasMarkF sub) = true
    · rw [if_pos hkeep, hasMarkF, hasMarkF, ihsub, ihsib]
    · rw [if_neg hkeep, hasMarkF, ihsib]
      have heq : (mk || hasMarkF sub) = false := by simpa using hkeep
      rcases Bool.or_eq_false_iff.mp heq with ⟨h1, h2⟩
      rw [h1, h2]
      rfl

/-- Pruning is idempotent. -/
theorem pruneF_pruneF (m : MForest) : pruneF (pruneF m) = pruneF m := by
  induction m with
  | nil => rfl
  | cons i h md mk sub sib ihsub ihsib =>
    rw [pruneF]
    by_cases hkeep : (mk || hasMarkF sub) = true
    · rw [if_pos hkeep, pruneF, hasMarkF_pruneF, if_pos hkeep, ihsub, ihsib]
    · rw [if_neg hkeep]
      exact ihsib

/-- `allIdsIn` is monotone in the predicate. -/
theorem allIdsIn_mono (p q : Nat → Bool) (m : MForest)
    (hpq : ∀ n, p n = true → q n = true) (hm : allIdsIn p m = true) :
    allIdsIn q m = true := by
  induction m with
  | nil => rfl
  | cons i h md mk sub sib ihsub ihsib =>
    rw [allIdsIn] at hm ⊢
    obtain ⟨⟨h1, h2⟩, h3⟩ := by simpa [Bool.and_eq_true] using hm
    simp [Bool.and_eq_true, hpq i h1, ihsub h2, ihsib h3]

/-- Every identity of a marked forest is a member of it. -/
theorem allIdsIn_self (m : MForest) : allIdsIn (fun n => idMemM n m) m = true := by
  induction m with
  | nil => rfl
  | cons i h md mk sub sib ihsub ihsib =>
    rw [allIdsIn]
    have h1 : idMemM i (MForest.cons i h md mk sub sib) = true := by
      rw [idMemM]
      simp
    have h2 : allIdsIn (fun n => idMemM n (MForest.cons i h md mk sub sib)) sub = true := by
      apply allIdsIn_mono (fun n => idMemM n sub) _ _ _ ihsub
      intro n hn
      have hn' : idMemM n sub = true := hn
      simp [idMemM, hn']
    have h3 : allIdsIn (fun n => idMemM n (MForest.cons i h md mk sub sib)) sib = true := by
      apply allIdsIn_mono (fun n => idMemM n sib) _ _ _ ihsib
      intro n hn
      have hn' : idMemM n sib = true := hn
      simp [idMemM, hn']
    rw [h1, h2, h3]
    rfl

/-- Stripping marks preserves node identities. -/
theorem idMemF_stripF (n : Nat) (m : MForest) :
    idMemF n (stripF m) = idMemM n m := by
  induction m with
  | nil => rfl
  | cons i h md mk sub sib ihsub ihsib =>
    rw [stripF, idMemF, idMemM, ihsub, ihsib]

/-- Purging the same identities twice is the same as purging them once. -/
theorem purgeIdsF_purgeIdsF (roots : List Nat) (f : XForest) :
    purgeIdsF roots (purgeIdsF roots f) = purgeIdsF roots f := by
  induction f with
  | nil => rfl
  | cons i h m sub sib ihsub ihsib =>
    rw [purgeIdsF]
    by_cases hi : (roots.contains i) = true
    · rw [if_pos hi, ihsib]
    · rw [if_neg hi, purgeIdsF, if_neg hi, ihsub, ihsib]

/-- The root-guarded traversal phase of `nacm_datanode_read`: a DEL-flagged
root keeps its children untraversed, otherwise the forest is traversed. -/
def readPhase (pvs : List PrepEntry) (xt : XTree) : MForest :=
  if readNodeFlag pvs [] xt.xid xt.hasSpec xt.modName == RFlag.del then toMF xt.sub
  else nacm_datanode_read_recurse pvs [xt.xid] xt.sub

/-- The tree produced by a read run with cache `pvs` and read-default `rd`. -/
def readApply (pvs : List PrepEntry) (rd : String) (xt : XTree) : XTree :=
  { xt with sub := stripF (
      if rd == "deny" then pruneF (readPhase pvs xt) else readPhase pvs xt) }

/-- Unfolding of `nacm_datanode_read` for a non-null username. -/
theorem nacm_datanode_read_some_unfold (resolve : XTree → String → List Nat)
    (canon : String → String) (u : String) (xrvec : List Nat) (x : Nacm)
    (xt : XTree) :
    nacm_datanode_read resolve canon (some u) xrvec x xt =
      (match x.readDefault with
       | none => none
       | some rd =>
         some (readApply (nacm_datanode_prepare canon (resolve xt)
           NacmAccess.read (groupsFor x u) x.ruleLists) rd xt)) := rfl

/-- `readApply` on an explicit root. -/
theorem readApply_mk (pvs : List PrepEntry) (rd : String) (xid : Nat)
    (hs : Bool) (md : String) (sub : XForest) :
    readApply pvs rd (XTree.mk xid hs md sub) =
      XTree.mk xid hs md (stripF (
        if rd == "deny" then pruneF (readPhase pvs (XTree.mk xid hs md sub))
        else readPhase pvs (XTree.mk xid hs md sub))) := rfl

/-- `readPhase` on an explicit root. -/
theorem readPhase_mk (pvs : List PrepEntry) (xid : Nat) (hs : Bool)
    (md : String) (sub : XForest) :
    readPhase pvs (XTree.mk xid hs md sub) =
      (if readNodeFlag pvs [] xid hs md == RFlag.del then toMF sub
       else nacm_datanode_read_recurse pvs [xid] sub) := rfl

/-- Every identity of `m` is a member of any tree whose children forest is
`stripF m`. -/
theorem allIdsIn_idMemX_stripF (m : MForest) (xt : XTree) (s : MForest)
    (hsub : xt.sub = stripF s) (hm : allIdsIn (fun n => idMemM n s) m = true) :
    allIdsIn (idMemX xt) m = true := by
  apply allIdsIn_mono (fun n => idMemM n s) _ _ _ hm
  intro n hn
  have hn' : idMemM n s = true := hn
  rw [idMemX, hsub, idMemF_stripF, hn']
  simp

/-- A second read run whose cache is the first run's cache shrunk to the
first run's output reproduces the output exactly. -/
theorem readApply_core (pvs1 pvs2 : List PrepEntry) (rd : String)
    (xid : Nat) (hs : Bool) (md : String) (sub : XForest)
    (hpvs2 : pvs2 = pvs1.filterMap
      (shrinkEntry (idMemX (readApply pvs1 rd (XTree.mk xid hs md sub))))) :
    readApply pvs2 rd (readApply pvs1 rd (XTree.mk xid hs md sub)) =
      readApply pvs1 rd (XTree.mk xid hs md sub) := by
  have hkeeproot : idMemX (readApply pvs1 rd (XTree.mk xid hs md sub)) xid = true := by
    rw [readApply_mk, idMemX]
    simp
  have hflag2 : readNodeFlag pvs2 [] xid hs md = readNodeFlag pvs1 [] xid hs md := by
    rw [hpvs2]
    apply readNodeFlag_shrink _ pvs1 [] xid hs md hkeeproot
    intro a ha
    exact absurd ha (List.not_mem_nil a)
  have hanc : ∀ a ∈ ([xid] : List Nat),
      idMemX (readApply pvs1 rd (XTree.mk xid hs md sub)) a = true := by
    intro a ha
    rw [List.mem_singleton] at ha
    rw [ha]
    exact hkeeproot
  by_cases hflg : (readNodeFlag pvs1 [] xid hs md == RFlag.del) = true
  · have hphase1 : readPhase pvs1 (XTree.mk xid hs md sub) = toMF sub := by
      rw [readPhase_mk, if_pos hflg]
    by_cases hdeny : (rd == "deny") = true
    · have hout : readApply pvs1 rd (XTree.mk xid hs md sub) =
          XTree.mk xid hs md XForest.nil := by
        rw [readApply_mk, hphase1, if_pos hdeny, pruneF_toMF]
        rfl
      rw [hout]
      rw [readApply_mk, readPhase_mk, hflag2, if_pos hflg, if_pos hdeny]
      rfl
    · have hout : readApply pvs1 rd (XTree.mk xid hs md sub) =
          XTree.mk xid hs md sub := by
        rw [readApply_mk, hphase1, if_neg hdeny, stripF_toMF]
      rw [hout]
      rw [readApply_mk, readPhase_mk, hflag2, if_pos hflg, if_neg hdeny, stripF_toMF]
  · have hphase1 : readPhase pvs1 (XTree.mk xid hs md sub) =
        nacm_datanode_read_recurse pvs1 [xid] sub := by
      rw [readPhase_mk, if_neg hflg]
    by_cases hdeny : (rd == "deny") = true
    · have hout : readApply pvs1 rd (XTree.mk xid hs md sub) =
          XTree.mk xid hs md
            (stripF (pruneF (nacm_datanode_read_recurse pvs1 [xid] sub))) := by
        rw [readApply_mk, hphase1, if_pos hdeny]
      have hallids : allIdsIn (idMemX (readApply pvs1 rd (XTree.mk xid hs md sub)))
          (pruneF (nacm_datanode_read_recurse pvs1 [xid] sub)) = true := by
        apply allIdsIn_idMemX_stripF _ _
          (pruneF (nacm_datanode_read_recurse pvs1 [xid] sub)) ?_ (allIdsIn_self _)
        rw [hout]
      have hcons : ReadConsistent pvs2 [xid]
          (pruneF (nacm_datanode_read_recurse pvs1 [xid] sub)) := by
        rw [hpvs2]
        exact readConsistent_shrink _ pvs1 [xid] _
          (readConsistent_pruneF pvs1 [xid] _
            (readConsistent_recurse pvs1 [xid] sub)) hallids hanc
      have hrepro : nacm_datanode_read_recurse pvs2 [xid]
          (stripF (pruneF (nacm_datanode_read_recurse pvs1 [xid] sub))) =
          pruneF (nacm_datanode_read_recurse pvs1 [xid] sub) :=
        recurse_stripF_of_consistent pvs2 [xid] _ hcons
      rw [hout, readApply_mk, readPhase_mk, hflag2, if_neg hflg, if_pos hdeny,
        hrepro, pruneF_pruneF]
    · have hout : readApply pvs1 rd (XTree.mk xid hs md sub) =
          XTree.mk xid hs md
            (stripF (nacm_datanode_read_recurse pvs1 [xid] sub)) := by
        rw [readApply_mk, hphase1, if_neg hdeny]
      have hallids : allIdsIn (idMemX (readApply pvs1 rd (XTree.mk xid hs md sub)))
          (nacm_datanode_read_recurse pvs1 [xid] sub) = true := by
        apply allIdsIn_idMemX_stripF _ _
          (nacm_datanode_read_recurse pvs1 [xid] sub) ?_ (allIdsIn_self _)
        rw [hout]
      have hcons : ReadConsistent pvs2 [xid]
          (nacm_datanode_read_recurse pvs1 [xid] sub) := by
        rw [hpvs2]
        exact readConsistent_shrink _ pvs1 [xid] _
          (readConsistent_recurse pvs1 [xid] sub) hallids hanc
      have hrepro : nacm_datanode_read_recurse pvs2 [xid]
          (stripF (nacm_datanode_read_recurse pvs1 [xid] sub)) =
          nacm_datanode_read_recurse pvs1 [xid] sub :=
        recurse_stripF_of_consistent pvs2 [xid] _ hcons
      rw [hout, readApply_mk, readPhase_mk, hflag2, if_neg hflg, if_neg hdeny,
        hrepro]

/-- C9: read evaluation is idempotent.  If the instance-identifier resolver
restricted to the output tree returns the surviving subset of its original
resolution (the defining property of instance-identifier lookup on a pruned
tree), then re-running `nacm_datanode_read` with the same policy, user and
requested roots on the output of a first run returns that output
unchanged. -/
theorem nacm_datanode_read_idempotent (resolve : XTree → String → List Nat)
    (canon : String → String) (username : Option String) (xrvec : List Nat)
    (x : Nacm) (xt t1 : XTree)
    (hstab : ∀ p, resolve t1 p = (resolve xt p).filter (idMemX t1))
    (h1 : nacm_datanode_read resolve canon username xrvec x xt = some t1) :
    nacm_datanode_read resolve canon username xrvec x t1 = some t1 := by
  cases username with
  | none =>
    simp only [nacm_datanode_read, Option.some.injEq] at h1 ⊢
    rw [← h1]
    simp [purgeIdsF_purgeIdsF]
  | some u =>
    rw [nacm_datanode_read_some_unfold] at h1 ⊢
    cases hrd : x.readDefault with
    | none =>
      rw [hrd] at h1
      simp at h1
    | some rd =>
      simp only [hrd, Option.some.injEq] at h1 ⊢
      obtain ⟨xid, hs, md, sub⟩ := xt
      rw [← h1] at hstab ⊢
      apply readApply_core
      exact nacm_datanode_prepare_shrink canon
        (resolve (XTree.mk xid hs md sub)) _ _ _ _ _ hstab

/-- A concrete policy with `read-default` = deny and no groups. -/
def pol9 : Nacm := ⟨some "deny", some "deny", none, [], []⟩

/-- A concrete two-node tree whose child is pruned by `pol9`. -/
def tree9 : XTree := ⟨0, false, "m", .cons 1 true "m" .nil .nil⟩

/-- Witness for C9 at a concrete input: the first run prunes the unmarked
child of `tree9`, and the second run on the pruned tree returns it
unchanged. -/
theorem nacm_datanode_read_idempotent_witness :
    nacm_datanode_read (fun _ _ => []) (fun p => p) (some "u") [1] pol9
      ⟨0, false, "m", XForest.nil⟩ = some ⟨0, false, "m", XForest.nil⟩ :=
  nacm_datanode_read_idempotent (fun _ _ => []) (fun p => p) (some "u") [1]
    pol9 tree9 ⟨0, false, "m", XForest.nil⟩ (fun _ => rfl) (by decide)

end ClixonNacm
